import Mathlib

set_option maxRecDepth 8000

namespace KBip

/-- Calendar date, modelling Python `datetime.date` values carried by items. -/
structure Date where
  year : Nat
  month : Nat
  day : Nat
  deriving DecidableEq

/-- Python `x or y` on optional strings: both `None` and the empty string are
falsy, so `some ""` is replaced by the right operand.  This models the
`self.field or redirect.field` expressions in `ContentItem.merge_with_redirect`
(src/models.py). -/
def pyOrStr : Option String → Option String → Option String
  | some s, b => if s = "" then b else some s
  | none, b => b

/-- Python `x or y` on optional dates: a `datetime.date` object is always
truthy, so only `None` falls through to the right operand. -/
def pyOrDate : Option Date → Option Date → Option Date
  | some d, _ => some d
  | none, b => b

/-- RedirectItem (src/models.py): a URL discovered mid-crawl plus optional
partial metadata. -/
structure RedirectItem where
  url : String
  main_title : Option String := none
  title : Option String := none
  description : Option String := none
  attachment_url : Option String := none
  published_at : Option Date := none
  created_at : Option Date := none
  last_modified_at : Option Date := none
  deriving DecidableEq

/-- ContentItem (src/models.py): a final reportable unit of content. -/
structure ContentItem where
  url : String
  main_title : String
  title : String
  description : Option String := none
  attachment_url : Option String := none
  published_at : Option Date := none
  created_at : Option Date := none
  last_modified_at : Option Date := none
  deriving DecidableEq

/-- ContentItem.merge_with_redirect (src/models.py lines 30-41): merge the
item with data from a RedirectItem via Python `or` on each optional field. -/
def ContentItem.merge_with_redirect (c : ContentItem) (r : RedirectItem) : ContentItem :=
  { url := c.url
    main_title := c.main_title
    title := c.title
    description := pyOrStr c.description r.description
    attachment_url := pyOrStr c.attachment_url r.attachment_url
    published_at := pyOrDate c.published_at r.published_at
    created_at := pyOrDate c.created_at r.created_at
    last_modified_at := pyOrDate c.last_modified_at r.last_modified_at }

/-- ItemRepository.exists (src/src/item_repository.py lines 54-56): membership
test comparing ALL fields (pydantic equality compares every field). -/
def repoExists (items : List ContentItem) (item : ContentItem) : Bool :=
  items.any fun existing => existing == item

/-- ItemRepository.add_item (src/src/item_repository.py lines 44-52): append
unless an equal item exists; returns whether the item was added together with
the updated store. -/
def addItem (items : List ContentItem) (item : ContentItem) : Bool × List ContentItem :=
  if repoExists items item then (false, items) else (true, items ++ [item])

/-- One iteration of ItemRepository.add_items: add the item to the store and
bump the count when it was actually added. -/
def addItemsStep (acc : Nat × List ContentItem) (it : ContentItem) : Nat × List ContentItem :=
  let r := addItem acc.2 it
  (acc.1 + (if r.1 then 1 else 0), r.2)

/-- ItemRepository.add_items (src/src/item_repository.py lines 58-64): add a
batch one by one, counting how many were actually added. -/
def addItems (items : List ContentItem) (newItems : List ContentItem) : Nat × List ContentItem :=
  newItems.foldl addItemsStep (0, items)

/-- Zero-pad a natural number to two digits, as Python `date.isoformat` does
for months and days. -/
def pad2 (n : Nat) : String :=
  if n < 10 then "0" ++ toString n else toString n

/-- Zero-pad a natural number to four digits, as Python `date.isoformat` does
for years. -/
def pad4 (n : Nat) : String :=
  if n < 10 then "000" ++ toString n
  else if n < 100 then "00" ++ toString n
  else if n < 1000 then "0" ++ toString n
  else toString n

/-- Python `date.isoformat`: render a date as `YYYY-MM-DD`. -/
def isoDate (d : Date) : String :=
  pad4 d.year ++ "-" ++ pad2 d.month ++ "-" ++ pad2 d.day

/-- The string the new-variant crawler compares against the stored
`last_modified_at` column (`item.last_modified_at.isoformat() if ... else None`,
src/src/crawler/new/crawler.py line 82). -/
def itemLastModifiedIso (c : ContentItem) : Option String :=
  c.last_modified_at.map isoDate

/-- One row of the `past_data` DataFrame, restricted to the columns the
duplicate check reads. -/
structure PastRow where
  title : String
  url : String
  last_modified_at : Option String
  deriving DecidableEq

/-- Pandas elementwise equality of a stored `last_modified_at` cell with the
item's rendered value: comparing against `None` or a missing (NaN) cell is
`False`, so equality requires both sides present. -/
def cellEq : Option String → Option String → Bool
  | some a, some b => a == b
  | _, _ => false

/-- Crawler._is_duplicate (src/src/crawler/new/crawler.py lines 77-92): a row
matches when title and url are equal and the stored `last_modified_at` cell
equals the item's iso-rendered date. -/
def isDuplicate (item : ContentItem) (past : List PastRow) : Bool :=
  past.any fun row =>
    row.title == item.title && row.url == item.url &&
      cellEq row.last_modified_at (itemLastModifiedIso item)

/-- One position of a regex shape: either `\d` or a literal character.  The
three patterns in src/src/crawler/datetime_extractor.py are built from these. -/
inductive CharSpec where
  | digit
  | lit (c : Char)
  deriving DecidableEq

/-- Whether a character matches one shape position (`\d` is modelled as an
ASCII digit). -/
def specMatches : CharSpec → Char → Bool
  | CharSpec.digit, c => c.isDigit
  | CharSpec.lit l, c => c == l

/-- Word character for the `\b` boundary of Python regexes (modelled over
ASCII alphanumerics and underscore). -/
def isWordChar (c : Char) : Bool := c.isAlphanum || c == '_'

/-- Shape of the regex `\d{2}\.\d{2}\.\d{4}` (first pattern, "%d.%m.%Y"). -/
def pat1 : List CharSpec :=
  [CharSpec.digit, CharSpec.digit, CharSpec.lit '.', CharSpec.digit, CharSpec.digit,
   CharSpec.lit '.', CharSpec.digit, CharSpec.digit, CharSpec.digit, CharSpec.digit]

/-- Shape of the regex `\d{4}-\d{2}-\d{2}` (second pattern, "%Y-%m-%d"). -/
def pat2 : List CharSpec :=
  [CharSpec.digit, CharSpec.digit, CharSpec.digit, CharSpec.digit, CharSpec.lit '-',
   CharSpec.digit, CharSpec.digit, CharSpec.lit '-', CharSpec.digit, CharSpec.digit]

/-- Shape of the regex `\d{4}-\d{2}-\d{2} \d{2}:\d{2}` (third pattern,
"%Y-%m-%d %H:%M"). -/
def pat3 : List CharSpec :=
  pat2 ++ [CharSpec.lit ' ', CharSpec.digit, CharSpec.digit, CharSpec.lit ':',
   CharSpec.digit, CharSpec.digit]

/-- Whether the shape matches the beginning of a character list. -/
def shapeFrom : List CharSpec → List Char → Bool
  | [], _ => true
  | _ :: _, [] => false
  | s :: ss, c :: cs => specMatches s c && shapeFrom ss cs

/-- Whether the regex `\b<shape>\b` matches at index `i` of the text: the
shape matches there and both ends sit on word boundaries. -/
def matchesAt (spec : List CharSpec) (cs : List Char) (i : Nat) : Bool :=
  (i == 0 || !isWordChar (cs.getD (i - 1) ' ')) &&
    shapeFrom spec (cs.drop i) &&
    !isWordChar (cs.getD (i + spec.length) ' ')

/-- `re.search` for one of the patterns: index of the leftmost match. -/
def searchSpec (spec : List CharSpec) (cs : List Char) : Option Nat :=
  (List.range (cs.length + 1)).find? fun i => matchesAt spec cs i

/-- The substring captured by a match at index `i` (the regex group). -/
def matchedAt (spec : List CharSpec) (cs : List Char) (i : Nat) : List Char :=
  (cs.drop i).take spec.length

/-- The three strptime formats used by the extractor. -/
inductive DateFmt where
  | ddmmyyyy
  | ymd
  | ymdhm
  deriving DecidableEq

/-- Result of `datetime.strptime`: a calendar date with time of day. -/
structure DateTime where
  year : Nat
  month : Nat
  day : Nat
  hour : Nat
  minute : Nat
  deriving DecidableEq

/-- Numeric value of a decimal digit character. -/
def digitVal (c : Char) : Nat := c.toNat - '0'.toNat

/-- Value of a list of decimal digit characters. -/
def natOfDigits (cs : List Char) : Nat := cs.foldl (fun a c => a * 10 + digitVal c) 0

/-- Gregorian leap-year test, as Python's calendar validation uses. -/
def isLeap (y : Nat) : Bool := (y % 4 == 0 && y % 100 != 0) || y % 400 == 0

/-- Number of days of a month, for strict calendar validation. -/
def daysInMonth (y m : Nat) : Nat :=
  if m = 2 then (if isLeap y then 29 else 28)
  else if m = 4 ∨ m = 6 ∨ m = 9 ∨ m = 11 then 30
  else 31

/-- Strict calendar validation as `datetime.strptime` performs it
(`datetime.MINYEAR = 1`, `MAXYEAR = 9999`). -/
def validYMD (y m d : Nat) : Bool :=
  decide (1 ≤ y ∧ y ≤ 9999 ∧ 1 ≤ m ∧ m ≤ 12 ∧ 1 ≤ d ∧ d ≤ daysInMonth y m)

/-- `datetime.strptime(s, "%d.%m.%Y")` on a string of shape `dd.mm.yyyy`;
`none` models the `ValueError` raised on an invalid calendar date. -/
def parseDDMMYYYY : List Char → Option DateTime
  | [d1, d2, _, m1, m2, _, y1, y2, y3, y4] =>
    let d := natOfDigits [d1, d2]
    let m := natOfDigits [m1, m2]
    let y := natOfDigits [y1, y2, y3, y4]
    if validYMD y m d then some ⟨y, m, d, 0, 0⟩ else none
  | _ => none

/-- `datetime.strptime(s, "%Y-%m-%d")` on a string of shape `yyyy-mm-dd`. -/
def parseYMD : List Char → Option DateTime
  | [y1, y2, y3, y4, _, m1, m2, _, d1, d2] =>
    let y := natOfDigits [y1, y2, y3, y4]
    let m := natOfDigits [m1, m2]
    let d := natOfDigits [d1, d2]
    if validYMD y m d then some ⟨y, m, d, 0, 0⟩ else none
  | _ => none

/-- `datetime.strptime(s, "%Y-%m-%d %H:%M")` on a string of shape
`yyyy-mm-dd hh:mm` (hour 00-23, minute 00-59). -/
def parseYMDHM : List Char → Option DateTime
  | [y1, y2, y3, y4, _, m1, m2, _, d1, d2, _, h1, h2, _, n1, n2] =>
    let y := natOfDigits [y1, y2, y3, y4]
    let m := natOfDigits [m1, m2]
    let d := natOfDigits [d1, d2]
    let h := natOfDigits [h1, h2]
    let n := natOfDigits [n1, n2]
    if validYMD y m d && decide (h ≤ 23 ∧ n ≤ 59) then some ⟨y, m, d, h, n⟩ else none
  | _ => none

/-- Dispatch a captured substring to its strptime format. -/
def parseWithFmt : DateFmt → List Char → Option DateTime
  | DateFmt.ddmmyyyy, cs => parseDDMMYYYY cs
  | DateFmt.ymd, cs => parseYMD cs
  | DateFmt.ymdhm, cs => parseYMDHM cs

/-- DATETIME_PATTERNS (src/src/crawler/datetime_extractor.py lines 5-9), in
source order: dd.mm.yyyy, then yyyy-mm-dd, then yyyy-mm-dd hh:mm. -/
def DATETIME_PATTERNS : List (List CharSpec × DateFmt) :=
  [(pat1, DateFmt.ddmmyyyy), (pat2, DateFmt.ymd), (pat3, DateFmt.ymdhm)]

/-- The extractor's loop over the pattern list (datetime_extractor.py lines
15-22): on the first pattern whose search matches, parse the captured group
and return — a `ValueError` (modelled by `none`) is returned as `None`, never
falling through to later patterns. -/
def extractCore : List (List CharSpec × DateFmt) → List Char → Option DateTime
  | [], _ => none
  | (spec, fmt) :: rest, cs =>
    match searchSpec spec cs with
    | some i => parseWithFmt fmt (matchedAt spec cs i)
    | none => extractCore rest cs

/-- extract_datetime (datetime_extractor.py lines 12-23): `None` or the empty
string are falsy and short-circuit to `None`; otherwise run the pattern loop. -/
def extract_datetime : Option String → Option DateTime
  | none => none
  | some t => if t = "" then none else extractCore DATETIME_PATTERNS t.data

/-- The first pattern of the list, in trial order, that textually matches the
text, together with its captured substring. -/
def firstMatchIn : List (List CharSpec × DateFmt) → List Char → Option (DateFmt × List Char)
  | [], _ => none
  | (spec, fmt) :: rest, cs =>
    match searchSpec spec cs with
    | some i => some (fmt, matchedAt spec cs i)
    | none => firstMatchIn rest cs

/-- A value yielded by a parser's `parse` generator: `None`, a RedirectItem,
or a ContentItem (the union return type of the extractor contract). -/
inductive CrawlResult where
  | noneRes
  | redirectRes (r : RedirectItem)
  | contentRes (c : ContentItem)
  deriving DecidableEq

/-- The strategy interface of src/src/crawler/nadarzyn_bip/base_parser.py:
`can_parse` plus `parse`, over an abstract DOM type. -/
structure BaseParser (Dom : Type) where
  canParse : String → Dom → Bool
  parse : String → Dom → List CrawlResult

/-- The parser-selection loop of Crawler.crawl_url
(src/src/crawler/nadarzyn_bip/crawler.py lines 74-79): the first parser in
list order whose `can_parse` holds. -/
def selectParser {Dom : Type} (ps : List (BaseParser Dom)) (url : String) (dom : Dom) :
    Option (BaseParser Dom) :=
  ps.find? fun p => p.canParse url dom

/-- The results crawl_url yields for a fetched page (crawler.py lines 81-85):
exclusively the selected parser's output, or nothing when no parser matches. -/
def crawlUrlResults {Dom : Type} (ps : List (BaseParser Dom)) (url : String) (dom : Dom) :
    List CrawlResult :=
  match selectParser ps url dom with
  | some p => p.parse url dom
  | none => []

/-- FullArticleParser.can_parse (src/src/crawler/new/parser.py lines 219-221):
always true — the last-resort fallback. -/
def fullArticleCanParse (Dom : Type) : String → Dom → Bool := fun _ _ => true

/-- Redirect component of a parse result. -/
def getRedirect : CrawlResult → Option RedirectItem
  | CrawlResult.redirectRes r => some r
  | _ => none

/-- Content component of a parse result. -/
def getContent : CrawlResult → Option ContentItem
  | CrawlResult.contentRes c => some c
  | _ => none

/-- State of the crawl loop of Crawler.crawl
(src/src/crawler/nadarzyn_bip/crawler.py lines 39-61): the work-list
`items_to_crawl` (only ever appended to), the position of the `for` iteration
over it, the accumulator `new_items`, and a log of the work-list positions
already processed. -/
structure CrawlState where
  queue : List RedirectItem
  idx : Nat
  acc : List ContentItem
  visited : List Nat
  deriving DecidableEq

/-- `RedirectItem(url=self.base_url)`: the seed work-list entry. -/
def mkSeed (url : String) : RedirectItem := { url := url }

/-- One iteration of the crawl loop: process the current work-list entry by
running crawl_url on its URL (abstracted as the `pages` environment mapping a
URL to the result sequence), appending emitted redirects to the work-list tail
and appending emitted content items — merged with the entry being visited —
to the accumulator. -/
def stepCrawl (pages : String → List CrawlResult) (s : CrawlState) : CrawlState :=
  if h : s.idx < s.queue.length then
    let r := s.queue.get ⟨s.idx, h⟩
    let results := pages r.url
    { queue := s.queue ++ results.filterMap getRedirect
      idx := s.idx + 1
      acc := s.acc ++ (results.filterMap getContent).map fun c => c.merge_with_redirect r
      visited := s.visited ++ [s.idx] }
  else s

/-- Initial crawl state: the work-list seeded with the base URL. -/
def initState (url : String) : CrawlState := ⟨[mkSeed url], 0, [], []⟩

/-- The crawl state after `n` loop iterations. -/
def crawlIter (pages : String → List CrawlResult) (url : String) (n : Nat) : CrawlState :=
  (stepCrawl pages)^[n] (initState url)

/-- The loop has ended: the `for` iteration has reached the end of the
work-list. -/
def crawlDone (s : CrawlState) : Prop := s.queue.length ≤ s.idx

instance (s : CrawlState) : Decidable (crawlDone s) := Nat.decLe _ _

/-- The crawl run terminates: some number of iterations exhausts the
work-list. -/
def crawlTerminates (pages : String → List CrawlResult) (url : String) : Prop :=
  ∃ n, crawlDone (crawlIter pages url n)

/-- A page environment in which every page emits one redirect back to the
same URL. -/
def selfLoopPages : String → List CrawlResult :=
  fun u => [CrawlResult.redirectRes (mkSeed u)]

/-- crawl_url of src/src/crawler/nadarzyn_bip/crawler.py (lines 63-88): the
`except` clause catches any fetch exception, logs, and ends the generator
with no items — the failure is swallowed. -/
def nadarzynCrawlUrl (fetch : String → Except String (List CrawlResult)) (url : String) :
    List CrawlResult :=
  match fetch url with
  | Except.ok rs => rs
  | Except.error _ => []

/-- crawl_url of src/src/crawler/new/crawler.py (lines 94-119): the `except`
clause logs and re-raises, so a fetch failure propagates out. -/
def newCrawlUrl (fetch : String → Except String (List CrawlResult)) (url : String) :
    Except String (List CrawlResult) :=
  fetch url

/-- A fetch environment in which every request raises a transport error. -/
def failingFetch : String → Except String (List CrawlResult) :=
  fun _ => Except.error "Network error"

/-- Events of the HTTP client session (src/src/crawler/http_client.py):
entering the context manager, a fetch, and closing the client on exit. -/
inductive SessionEvent where
  | acquire
  | release
  | fetchEv (url : String)
  deriving DecidableEq

/-- The fetches the crawl body performs, with an optional index at which a
fetch raises: the trace of fetch events and whether the body completed
normally (`false` means an exception escaped the body). -/
def runFetches : List String → Option Nat → List SessionEvent × Bool
  | [], _ => ([], true)
  | u :: _, some 0 => ([SessionEvent.fetchEv u], false)
  | u :: rest, some (n + 1) =>
    let r := runFetches rest (some n)
    (SessionEvent.fetchEv u :: r.1, r.2)
  | u :: rest, none =>
    let r := runFetches rest none
    (SessionEvent.fetchEv u :: r.1, r.2)

/-- The `with HttpClient() as client:` block wrapping the whole crawl
(src/src/crawler/nadarzyn_bip/crawler.py lines 42-59): `__enter__` runs once
before the body, and Python's `with` semantics run `__exit__` — which closes
the httpx client — exactly once afterwards, both when the body completes and
when it raises (the exception then propagates, reported by the Bool). -/
def crawlSession (urls : List String) (failAt : Option Nat) : List SessionEvent × Bool :=
  let r := runFetches urls failAt
  (SessionEvent.acquire :: r.1 ++ [SessionEvent.release], r.2)

/-- The components `urlparse`/`parse_qs` produce for the URLs this site uses
(absolute http(s) URLs; the query as insertion-ordered key-to-values pairs,
as `parse_qs` returns a dict of lists).  `parse_url_components` and
`reconstruct_url` (src/src/crawler/url_manipulation.py) round-trip between a
URL string and these components, so the embedding works on the components and
renders the string form with `urlChars`. -/
structure UrlParts where
  scheme : String
  netloc : String
  path : String
  params : String
  query : List (String × List String)
  fragment : String
  deriving DecidableEq

/-- One `key=value` piece of `urlencode` output (values here are plain tokens
and search words, so percent-escaping is not modelled). -/
def encPair (k : String) (v : String) : List Char := k.data ++ '=' :: v.data

/-- Join pieces with a separator character, as `urlencode` joins with `&`. -/
def joinSep (c : Char) : List (List Char) → List Char
  | [] => []
  | [x] => x
  | x :: y :: xs => x ++ c :: joinSep c (y :: xs)

/-- `urlencode(query_params, doseq=True)`: one `key=value` piece per value of
each key, in insertion order, joined with `&`. -/
def encodeQueryChars (q : List (String × List String)) : List Char :=
  joinSep '&' (q.flatMap fun kv => kv.2.map (encPair kv.1))

/-- `urlunparse` (as used by reconstruct_url): scheme, `://`, netloc, path,
then `;params`, `?query` and `#fragment` only when nonempty. -/
def urlChars (u : UrlParts) : List Char :=
  u.scheme.data ++ ':' :: '/' :: '/' :: u.netloc.data ++ u.path.data
    ++ (if u.params = "" then [] else ';' :: u.params.data)
    ++ (if encodeQueryChars u.query = [] then [] else '?' :: encodeQueryChars u.query)
    ++ (if u.fragment = "" then [] else '#' :: u.fragment.data)

/-- Python's substring containment `sub in hay`. -/
def containsSub (sub hay : List Char) : Bool :=
  (List.range (hay.length + 1)).any fun i => (hay.drop i).take sub.length == sub

/-- The query-parameter name of the hidden anti-forgery input. -/
def tokenKey : String := "_session_antiCSRF"

/-- SearchPageConfiguratorParser.can_parse (src/src/crawler/new/parser.py
lines 30-31): the URL contains "/redir,szukaj" and does not contain
"_session_antiCSRF". -/
def searchConfiguratorCanParse (url : List Char) : Bool :=
  containsSub "/redir,szukaj".data url && !containsSub "_session_antiCSRF".data url

/-- What the configurator reads from the page: `css_first` on the hidden
anti-CSRF input (`none` when the input is absent) and, when present, its
`value` attribute (`none` when the attribute is absent). -/
structure SearchDom where
  tokenValue : Option (Option String)
  deriving DecidableEq

/-- SearchPageConfiguratorParser._sanitize_query_parameters (parser.py lines
44-48): drop any anti-CSRF query parameter, keep everything else. -/
def sanitizeQueryParameters (u : UrlParts) : UrlParts :=
  { u with query := u.query.filter fun kv => !(kv.1 == tokenKey) }

/-- SearchPageConfiguratorParser._prepare_search_url (parser.py lines 50-62):
when the page holds a token input with a truthy value, insert the parameter
(the key is absent after sanitising, so dict assignment appends it);
otherwise return the URL unchanged. -/
def prepareSearchUrl (u : UrlParts) (dom : SearchDom) : UrlParts :=
  match dom.tokenValue with
  | some (some v) => if v = "" then u else { u with query := u.query ++ [(tokenKey, [v])] }
  | _ => u

/-- SearchPageConfiguratorParser.parse (parser.py lines 33-42): yield one
RedirectItem at the prepared URL exactly when it is truthy and differs, as a
string, from the sanitised URL. -/
def searchConfiguratorParse (u : UrlParts) (dom : SearchDom) : List RedirectItem :=
  if urlChars (prepareSearchUrl (sanitizeQueryParameters u) dom) = [] then []
  else if urlChars (prepareSearchUrl (sanitizeQueryParameters u) dom) =
      urlChars (sanitizeQueryParameters u) then []
  else [mkSeed (String.mk (urlChars (prepareSearchUrl (sanitizeQueryParameters u) dom)))]

/-- A prior-run item stored in the repository. -/
def priorItem : ContentItem :=
  { url := "https://bip.nadarzyn.pl/994,x#akapit_1", main_title := "Przetargi",
    title := "Przetarg X", description := some "first revision text",
    last_modified_at := some ⟨2025, 10, 1⟩ }

/-- A crawled item agreeing with `priorItem` on title, url and
last_modified_at but with a different description. -/
def crawledItem : ContentItem :=
  { url := "https://bip.nadarzyn.pl/994,x#akapit_1", main_title := "Przetargi",
    title := "Przetarg X", description := some "second revision text",
    last_modified_at := some ⟨2025, 10, 1⟩ }

/-- A content item with a truthy description and a null published_at. -/
def c2item : ContentItem :=
  { url := "https://site/detail#akapit_1", main_title := "Przetargi",
    title := "Przetarg X", description := some "kept" }

/-- A redirect carrying a description and a published_at. -/
def c2redirect : RedirectItem :=
  { url := "https://site/list", description := some "redirect snippet",
    published_at := some ⟨2025, 10, 1⟩ }

/-- A content item whose description is the empty string: non-null but falsy
in Python. -/
def c2emptyDesc : ContentItem :=
  { url := "https://site/detail", main_title := "m", title := "t",
    description := some "" }

/-- A redirect whose description is present and nonempty. -/
def c2filledRedirect : RedirectItem :=
  { url := "https://site/list", description := some "filled from redirect" }

/-- A stored repository item. -/
def repoA : ContentItem := { url := "https://a", main_title := "ma", title := "ta" }

/-- A fresh item distinct from `repoA`. -/
def repoB : ContentItem := { url := "https://b", main_title := "mb", title := "tb" }

/-- The content item the matching strategy emits in the dispatch witness. -/
def witItem : ContentItem :=
  { url := "https://site/detail", main_title := "Przetarg X", title := "Przetarg X" }

/-- The content item the fallback strategy would emit. -/
def fbItem : ContentItem :=
  { url := "https://site/detail", main_title := "fallback", title := "fallback" }

/-- A strategy that recognises every page and emits `witItem`. -/
def articleStrategy : BaseParser Unit :=
  ⟨fun _ _ => true, fun _ _ => [CrawlResult.contentRes witItem]⟩

/-- The last-resort fallback strategy: `can_parse` always true. -/
def fallbackStrategy : BaseParser Unit :=
  ⟨fullArticleCanParse Unit, fun _ _ => [CrawlResult.contentRes fbItem]⟩

/-- A freshly-submitted search URL without a session token. -/
def u0 : UrlParts :=
  ⟨"https", "bip.nadarzyn.pl", "/redir,szukaj", "", [("szukaj", ["kajetany"])], ""⟩

/-- A search page holding the hidden anti-CSRF input with value "tok123". -/
def dom0 : SearchDom := ⟨some (some "tok123")⟩

lemma cellEq_iff (a b : Option String) :
    cellEq a b = true ↔ ∃ s, a = some s ∧ b = some s := by
  cases a <;> cases b <;> simp [cellEq]
  exact ⟨fun h => h.symm, fun h => h.symm⟩

lemma rowMatch_iff (row : PastRow) (item : ContentItem) :
    (row.title == item.title && row.url == item.url &&
      cellEq row.last_modified_at (itemLastModifiedIso item)) = true ↔
    (row.title = item.title ∧ row.url = item.url ∧
      ∃ s, row.last_modified_at = some s ∧ itemLastModifiedIso item = some s) := by
  simp [Bool.and_eq_true, beq_iff_eq, cellEq_iff, and_assoc]

/-- C1 (amended): the new-variant crawler's `_is_duplicate` recognises a
duplicate exactly when some prior row agrees on title, on url, and on a
present (non-null) last_modified_at rendered in ISO form — so changing any
one of the three makes the item non-duplicate, and url equality alone is not
sufficient.  (The main pipeline's ItemRepository.exists instead compares all
fields, and the legacy crawler compares url alone — see the counterexample.) -/
theorem c1_duplicate_composite_key (item : ContentItem) (past : List PastRow) :
    isDuplicate item past = true ↔
      ∃ row ∈ past, row.title = item.title ∧ row.url = item.url ∧
        ∃ s, row.last_modified_at = some s ∧ itemLastModifiedIso item = some s := by
  simp only [isDuplicate, List.any_eq_true]
  exact exists_congr fun row => and_congr_right fun _ => rowMatch_iff row item

/-- C1 counterexample: in the main pipeline (main.py filters crawled items
with ItemRepository.exists), two items agreeing on all of title, url and
last_modified_at but differing in description are NOT recognised as
duplicates — duplicate recognition there is not the composite key. -/
theorem c1_counterexample :
    (crawledItem.title = priorItem.title ∧ crawledItem.url = priorItem.url ∧
      crawledItem.last_modified_at = priorItem.last_modified_at) ∧
    repoExists [priorItem] crawledItem = false := by decide

lemma pyOrStr_self (b : Option String) : pyOrStr b b = b := by
  cases b with
  | none => rfl
  | some t =>
    by_cases ht : t = "" <;> simp [pyOrStr, ht]

lemma pyOrStr_right_idem (a b : Option String) : pyOrStr (pyOrStr a b) b = pyOrStr a b := by
  cases a with
  | none => exact pyOrStr_self b
  | some s =>
    by_cases hs : s = ""
    · subst hs
      have hred : pyOrStr (some "") b = b := by simp [pyOrStr]
      rw [hred]
      exact pyOrStr_self b
    · simp [pyOrStr, hs]

lemma pyOrDate_right_idem (a b : Option Date) : pyOrDate (pyOrDate a b) b = pyOrDate a b := by
  cases a <;> cases b <;> rfl

/-- C2 (amended): merge_with_redirect keeps the identity fields, never
overwrites a truthy field of the item (any non-null date; a non-null and
nonempty string), fills a null field from the redirect, and is idempotent:
merging the result with the same redirect again changes nothing.  Python `or`
treats the empty string as missing, so a non-null empty-string field is the
one deviation from the original claim (see the counterexample). -/
theorem c2_merge_coalesce (c : ContentItem) (r : RedirectItem) :
    ((c.merge_with_redirect r).url = c.url ∧
      (c.merge_with_redirect r).main_title = c.main_title ∧
      (c.merge_with_redirect r).title = c.title) ∧
    (∀ s, c.description = some s → s ≠ "" → (c.merge_with_redirect r).description = some s) ∧
    (∀ s, c.attachment_url = some s → s ≠ "" →
      (c.merge_with_redirect r).attachment_url = some s) ∧
    (∀ d, c.published_at = some d → (c.merge_with_redirect r).published_at = some d) ∧
    (∀ d, c.created_at = some d → (c.merge_with_redirect r).created_at = some d) ∧
    (∀ d, c.last_modified_at = some d → (c.merge_with_redirect r).last_modified_at = some d) ∧
    (c.description = none → (c.merge_with_redirect r).description = r.description) ∧
    (c.attachment_url = none → (c.merge_with_redirect r).attachment_url = r.attachment_url) ∧
    (c.published_at = none → (c.merge_with_redirect r).published_at = r.published_at) ∧
    (c.created_at = none → (c.merge_with_redirect r).created_at = r.created_at) ∧
    (c.last_modified_at = none → (c.merge_with_redirect r).last_modified_at = r.last_modified_at) ∧
    (c.merge_with_redirect r).merge_with_redirect r = c.merge_with_redirect r := by
  refine ⟨⟨rfl, rfl, rfl⟩, ?_, ?_, ?_, ?_, ?_, ?_, ?_, ?_, ?_, ?_, ?_⟩
  · intro s hs hne; simp [ContentItem.merge_with_redirect, hs, pyOrStr, hne]
  · intro s hs hne; simp [ContentItem.merge_with_redirect, hs, pyOrStr, hne]
  · intro d hd; simp [ContentItem.merge_with_redirect, hd, pyOrDate]
  · intro d hd; simp [ContentItem.merge_with_redirect, hd, pyOrDate]
  · intro d hd; simp [ContentItem.merge_with_redirect, hd, pyOrDate]
  · intro h; simp [ContentItem.merge_with_redirect, h, pyOrStr]
  · intro h; simp [ContentItem.merge_with_redirect, h, pyOrStr]
  · intro h; simp [ContentItem.merge_with_redirect, h, pyOrDate]
  · intro h; simp [ContentItem.merge_with_redirect, h, pyOrDate]
  · intro h; simp [ContentItem.merge_with_redirect, h, pyOrDate]
  · simp [ContentItem.merge_with_redirect, pyOrStr_right_idem, pyOrDate_right_idem]

/-- C2 witness: on concrete items, the truthy description survives the merge
and the null published_at is filled from the redirect. -/
theorem c2_witness :
    (c2item.description = some "kept" ∧ c2item.published_at = none) ∧
    (c2item.merge_with_redirect c2redirect).description = some "kept" ∧
    (c2item.merge_with_redirect c2redirect).published_at = c2redirect.published_at := by
  refine ⟨⟨rfl, rfl⟩, ?_, ?_⟩
  · exact (c2_merge_coalesce c2item c2redirect).2.1 "kept" rfl (by decide)
  · exact (c2_merge_coalesce c2item c2redirect).2.2.2.2.2.2.2.2.1 rfl

/-- C2 counterexample: a non-null but empty-string description IS overwritten
by the redirect's description, refuting "never overwrites a non-null field". -/
theorem c2_counterexample :
    c2emptyDesc.description.isSome = true ∧
    (c2emptyDesc.merge_with_redirect c2filledRedirect).description ≠ c2emptyDesc.description := by
  decide

lemma repoExists_iff_mem (items : List ContentItem) (item : ContentItem) :
    repoExists items item = true ↔ item ∈ items := by
  simp [repoExists, List.any_eq_true, beq_iff_eq]

lemma addItem_nodup (items : List ContentItem) (item : ContentItem)
    (h : items.Nodup) : (addItem items item).2.Nodup := by
  unfold addItem
  split
  · exact h
  · rename_i hnot
    have hmem : item ∉ items := fun hm => hnot ((repoExists_iff_mem items item).2 hm)
    exact List.nodup_append.2 ⟨h, List.nodup_singleton item,
      fun a ha hb => by simp at hb; subst hb; exact hmem ha⟩

lemma addItemsAux_nodup (newItems : List ContentItem) :
    ∀ acc : Nat × List ContentItem, acc.2.Nodup →
      (newItems.foldl addItemsStep acc).2.Nodup := by
  induction newItems with
  | nil => intro acc h; simpa using h
  | cons x xs ih =>
    intro acc h
    simp only [List.foldl_cons]
    exact ih _ (addItem_nodup acc.2 x h)

/-- C10: ItemRepository keeps its items pairwise distinct: exists is
membership (all-fields equality), add_item refuses a duplicate and leaves
the store unchanged, and both add_item and any add_items batch preserve
distinctness of a distinct store. -/
theorem c10_repository_distinct (items : List ContentItem) (item : ContentItem)
    (newItems : List ContentItem) (h : items.Nodup) :
    (repoExists items item = true ↔ item ∈ items) ∧
    (item ∈ items → addItem items item = (false, items)) ∧
    (addItem items item).2.Nodup ∧
    (addItems items newItems).2.Nodup := by
  refine ⟨repoExists_iff_mem items item, ?_, addItem_nodup items item h, ?_⟩
  · intro hmem
    simp [addItem, (repoExists_iff_mem items item).2 hmem]
  · exact addItemsAux_nodup newItems (0, items) h

/-- C10 witness: a concrete distinct store stays distinct through a batch
containing duplicates, and the duplicate add is refused. -/
theorem c10_witness :
    ([repoA] : List ContentItem).Nodup ∧ repoA ∈ [repoA] ∧
    addItem [repoA] repoA = (false, [repoA]) ∧
    (addItems [repoA] [repoB, repoB, repoA]).2.Nodup := by
  refine ⟨by decide, by decide, ?_, ?_⟩
  · exact (c10_repository_distinct [repoA] repoA [repoB, repoB, repoA] (by decide)).2.1
      (by decide)
  · exact (c10_repository_distinct [repoA] repoA [repoB, repoB, repoA] (by decide)).2.2.2

lemma extractCore_eq_firstMatch (ps : List (List CharSpec × DateFmt)) (cs : List Char)
    (f : DateFmt) (m : List Char) (h : firstMatchIn ps cs = some (f, m)) :
    extractCore ps cs = parseWithFmt f m := by
  induction ps with
  | nil => simp [firstMatchIn] at h
  | cons p rest ih =>
    obtain ⟨spec, fmt⟩ := p
    cases hs : searchSpec spec cs with
    | some i =>
      simp [firstMatchIn, hs] at h
      simp [extractCore, hs, h.1, h.2]
    | none =>
      simp [firstMatchIn, hs] at h
      simp only [extractCore, hs]
      exact ih h

/-- C3: when the first pattern of DATETIME_PATTERNS (in trial order) that
textually matches the input captures a substring that is not a valid
calendar date, extract_datetime returns null — it never falls through to a
later pattern or to a weaker match elsewhere in the string. -/
theorem c3_invalid_date_stops (t : String) (f : DateFmt) (m : List Char)
    (hmatch : firstMatchIn DATETIME_PATTERNS t.data = some (f, m))
    (hinvalid : parseWithFmt f m = none) :
    extract_datetime (some t) = none := by
  by_cases ht : t = ""
  · simp [extract_datetime, ht]
  · simp only [extract_datetime, ht, if_false]
    rw [extractCore_eq_firstMatch DATETIME_PATTERNS t.data f m hmatch]
    exact hinvalid

/-- C3 witness: "32.13.2025" is the first syntactic match in its text, is an
invalid calendar date, and the extractor returns null. -/
theorem c3_witness :
    firstMatchIn DATETIME_PATTERNS ("Invalid date: 32.13.2025".data) =
      some (DateFmt.ddmmyyyy, "32.13.2025".data) ∧
    parseWithFmt DateFmt.ddmmyyyy ("32.13.2025".data) = none ∧
    extract_datetime (some "Invalid date: 32.13.2025") = none :=
  ⟨by decide, by decide,
    c3_invalid_date_stops "Invalid date: 32.13.2025" DateFmt.ddmmyyyy ("32.13.2025".data)
      (by decide) (by decide)⟩

/-- C4 (amended): extract_datetime's result is fully determined by the first
pattern in DATETIME_PATTERNS order that textually matches, even when a later
pattern also matches; but the list orders the date-only ISO pattern before
the date-with-time pattern, so a date-with-time substring is captured by the
date-only pattern and its time of day is discarded (see the counterexample). -/
theorem c4_first_match_determines (t : String) (f : DateFmt) (m : List Char)
    (hmatch : firstMatchIn DATETIME_PATTERNS t.data = some (f, m)) :
    extract_datetime (some t) = parseWithFmt f m := by
  by_cases ht : t = ""
  · rw [ht] at hmatch
    have hnone : firstMatchIn DATETIME_PATTERNS ("".data) = none := by decide
    rw [hnone] at hmatch
    cases hmatch
  · simp only [extract_datetime, ht, if_false]
    exact extractCore_eq_firstMatch DATETIME_PATTERNS t.data f m hmatch

/-- C4 witness: on a text containing a date-with-time substring, the first
matching pattern is the date-only ISO one and the result is its parse. -/
theorem c4_witness :
    firstMatchIn DATETIME_PATTERNS ("Published: 2025-03-15 14:30".data) =
      some (DateFmt.ymd, "2025-03-15".data) ∧
    extract_datetime (some "Published: 2025-03-15 14:30") =
      parseWithFmt DateFmt.ymd ("2025-03-15".data) :=
  ⟨by decide,
    c4_first_match_determines "Published: 2025-03-15 14:30" DateFmt.ymd ("2025-03-15".data)
      (by decide)⟩

/-- C4 counterexample: "2025-03-15 14:30" is matched in full by the
date-with-time pattern, which would parse it with hour 14; yet the extractor
returns the date-only parse with the time zeroed, because the date-only
pattern is listed earlier — refuting the claimed specific-first ordering. -/
theorem c4_counterexample :
    extract_datetime (some "2025-03-15 14:30") = some ⟨2025, 3, 15, 0, 0⟩ ∧
    searchSpec pat3 ("2025-03-15 14:30".data) = some 0 ∧
    parseWithFmt DateFmt.ymdhm ("2025-03-15 14:30".data) = some ⟨2025, 3, 15, 14, 30⟩ ∧
    (⟨2025, 3, 15, 0, 0⟩ : DateTime) ≠ ⟨2025, 3, 15, 14, 30⟩ := by
  decide

/-- C5: when some parser in the priority list (before the appended fallback)
recognises the page, crawl_url selects the first such parser and its parse
output is used exclusively for the page: every parser before it rejected the
page and the fallback (can_parse constantly true, ordered last) contributes
no results. -/
theorem c5_first_parser_exclusive {Dom : Type} (ps : List (BaseParser Dom))
    (fb : BaseParser Dom) (url : String) (dom : Dom)
    (hfb : fb.canParse = fullArticleCanParse Dom)
    (hmatch : ∃ p ∈ ps, p.canParse url dom = true) :
    ∃ i, ∃ hi : i < ps.length,
      selectParser (ps ++ [fb]) url dom = some (ps.get ⟨i, hi⟩) ∧
      (ps.get ⟨i, hi⟩).canParse url dom = true ∧
      (∀ j, ∀ hj : j < i, (ps.get ⟨j, Nat.lt_trans hj hi⟩).canParse url dom = false) ∧
      crawlUrlResults (ps ++ [fb]) url dom = (ps.get ⟨i, hi⟩).parse url dom := by
  clear hfb
  revert hmatch
  induction ps with
  | nil =>
    intro hmatch
    simp at hmatch
  | cons q qs ih =>
    intro hmatch
    by_cases hq : q.canParse url dom = true
    · have hsel : selectParser ((q :: qs) ++ [fb]) url dom = some q := by
        simp [selectParser, List.cons_append, List.find?_cons, hq]
      refine ⟨0, Nat.succ_pos qs.length, hsel, hq, ?_, ?_⟩
      · intro j hj
        exact absurd hj (Nat.not_lt_zero j)
      · simp only [crawlUrlResults, hsel]
        rfl
    · have hq' : q.canParse url dom = false := by
        cases hb : q.canParse url dom with
        | false => rfl
        | true => exact absurd hb hq
      obtain ⟨p, hp, hpc⟩ := hmatch
      rcases List.mem_cons.1 hp with rfl | hp'
      · exact absurd hpc hq
      obtain ⟨i, hi, hsel, hcan, hbef, _⟩ := ih ⟨p, hp', hpc⟩
      have hsel2 : selectParser ((q :: qs) ++ [fb]) url dom = some (qs.get ⟨i, hi⟩) := by
        have hstep : selectParser ((q :: qs) ++ [fb]) url dom =
            selectParser (qs ++ [fb]) url dom := by
          simp [selectParser, List.cons_append, List.find?_cons, hq']
        rw [hstep, hsel]
      refine ⟨i + 1, Nat.succ_lt_succ hi, hsel2, hcan, ?_, ?_⟩
      · intro j hj
        cases j with
        | zero => exact hq'
        | succ k => exact hbef k (Nat.lt_of_succ_lt_succ hj)
      · simp only [crawlUrlResults, hsel2]
        rfl

/-- C5 witness: with a matching strategy ahead of the fallback, the matching
strategy is selected and its output used; the fallback contributes nothing. -/
theorem c5_witness :
    ∃ i, ∃ hi : i < [articleStrategy].length,
      selectParser ([articleStrategy] ++ [fallbackStrategy]) "u" () =
        some ([articleStrategy].get ⟨i, hi⟩) ∧
      ([articleStrategy].get ⟨i, hi⟩).canParse "u" () = true ∧
      (∀ j, ∀ hj : j < i,
        ([articleStrategy].get ⟨j, Nat.lt_trans hj hi⟩).canParse "u" () = false) ∧
      crawlUrlResults ([articleStrategy] ++ [fallbackStrategy]) "u" () =
        ([articleStrategy].get ⟨i, hi⟩).parse "u" () :=
  c5_first_parser_exclusive [articleStrategy] fallbackStrategy "u" () rfl
    ⟨articleStrategy, by simp, rfl⟩

/-- C6: evaluation at the failing input.  With a fetch environment in which
the seed request raises a transport error, the nadarzyn_bip crawler — whose
crawl_url catches the exception and ends the generator — completes the run
normally after one iteration with an empty accumulator, while the new-variant
crawl_url re-raises, as the repository's own test
test_crawl_url_http_error_propagates expects. -/
theorem c6_seed_failure_swallowed :
    crawlDone (crawlIter (nadarzynCrawlUrl failingFetch) "seed" 1) ∧
    (crawlIter (nadarzynCrawlUrl failingFetch) "seed" 1).acc = [] ∧
    newCrawlUrl failingFetch "seed" = Except.error "Network error" :=
  ⟨by decide, by decide, rfl⟩

lemma crawl_invariant (pages : String → List CrawlResult) (url : String) (n : Nat) :
    (crawlIter pages url n).visited = List.range (crawlIter pages url n).idx ∧
    (crawlIter pages url n).idx ≤ (crawlIter pages url n).queue.length := by
  induction n with
  | zero => simp [crawlIter, initState]
  | succ n ih =>
    obtain ⟨h1, h2⟩ := ih
    have hstep : crawlIter pages url (n + 1) = stepCrawl pages (crawlIter pages url n) := by
      simp [crawlIter, Function.iterate_succ_apply']
    rw [hstep]
    unfold stepCrawl
    split
    · rename_i hlt
      constructor
      · simp [h1, List.range_succ]
      · simp only [List.length_append]
        omega
    · exact ⟨h1, h2⟩

/-- C7 (amended): whenever the crawl loop reaches the end of the work-list,
the iteration index equals the final work-list length and the log of
processed positions is exactly one visit per appended work-list entry in
order — the run ends precisely when the work-list is exhausted, returning
the accumulator state.  (Termination itself does not hold for every input:
see the counterexample.) -/
theorem c7_worklist_exact_visit (pages : String → List CrawlResult) (url : String) (n : Nat)
    (hdone : crawlDone (crawlIter pages url n)) :
    (crawlIter pages url n).idx = (crawlIter pages url n).queue.length ∧
    (crawlIter pages url n).visited = List.range (crawlIter pages url n).queue.length := by
  obtain ⟨h1, h2⟩ := crawl_invariant pages url n
  have heq : (crawlIter pages url n).idx = (crawlIter pages url n).queue.length :=
    Nat.le_antisymm h2 hdone
  exact ⟨heq, by rw [← heq]; exact h1⟩

/-- C7 witness: with an environment yielding no results, the loop is done
after one iteration having visited exactly the single seeded entry. -/
theorem c7_witness :
    crawlDone (crawlIter (fun _ => []) "a" 1) ∧
    (crawlIter (fun _ => []) "a" 1).visited =
      List.range (crawlIter (fun _ => []) "a" 1).queue.length :=
  ⟨by decide, (c7_worklist_exact_visit (fun _ => []) "a" 1 (by decide)).2⟩

lemma selfLoop_state (n : Nat) :
    (crawlIter selfLoopPages "a" n).idx = n ∧
    (crawlIter selfLoopPages "a" n).queue.length = n + 1 := by
  induction n with
  | zero => simp [crawlIter, initState]
  | succ n ih =>
    have hstep : crawlIter selfLoopPages "a" (n + 1) =
        stepCrawl selfLoopPages (crawlIter selfLoopPages "a" n) := by
      simp [crawlIter, Function.iterate_succ_apply']
    have hlt : (crawlIter selfLoopPages "a" n).idx <
        (crawlIter selfLoopPages "a" n).queue.length := by
      rw [ih.1, ih.2]; omega
    rw [hstep]
    unfold stepCrawl
    rw [dif_pos hlt]
    constructor
    · simp [ih.1]
    · simp [selfLoopPages, getRedirect, ih.2]

/-- C7 counterexample: the crawl loop does not terminate for every input —
with a page that emits one redirect back to its own URL, the work-list grows
forever and no number of iterations exhausts it. -/
theorem c7_counterexample : ¬ crawlTerminates selfLoopPages "a" := by
  rintro ⟨n, hn⟩
  obtain ⟨h1, h2⟩ := selfLoop_state n
  unfold crawlDone at hn
  omega

lemma runFetches_no_session (urls : List String) :
    ∀ failAt : Option Nat,
      (runFetches urls failAt).1.count SessionEvent.acquire = 0 ∧
      (runFetches urls failAt).1.count SessionEvent.release = 0 := by
  induction urls with
  | nil =>
    intro failAt
    simp [runFetches]
  | cons u rest ih =>
    intro failAt
    match failAt with
    | none =>
      simp [runFetches, List.count_cons, ih none]
    | some 0 =>
      simp [runFetches, List.count_cons, List.count_nil]
    | some (k + 1) =>
      simp [runFetches, List.count_cons, ih (some k)]

/-- C8: the crawl wraps all fetching in one `with HttpClient()` block, so
for any URL list and any fetch-failure point the session is acquired exactly
once, at the start, and released exactly once, at the end — both when the
body completes and when a fetch raises partway through. -/
theorem c8_session_closed_once (urls : List String) (failAt : Option Nat) :
    (crawlSession urls failAt).1.count SessionEvent.acquire = 1 ∧
    (crawlSession urls failAt).1.count SessionEvent.release = 1 ∧
    (crawlSession urls failAt).1.head? = some SessionEvent.acquire ∧
    (crawlSession urls failAt).1.getLast? = some SessionEvent.release := by
  obtain ⟨ha, hr⟩ := runFetches_no_session urls failAt
  refine ⟨?_, ?_, rfl, ?_⟩
  · simp [crawlSession, List.count_cons, List.count_append, ha]
  · simp [crawlSession, List.count_cons, List.count_append, hr]
  · show (SessionEvent.acquire :: ((runFetches urls failAt).1 ++ [SessionEvent.release])).getLast?
      = some SessionEvent.release
    rw [← List.cons_append, List.getLast?_concat]

lemma encPair_ne_nil (k v : String) : encPair k v ≠ [] := by
  simp [encPair]

lemma joinSep_concat (c : Char) (xs : List (List Char)) (y : List Char) :
    joinSep c (xs ++ [y]) = (if xs = [] then y else joinSep c xs ++ c :: y) := by
  induction xs with
  | nil => simp [joinSep]
  | cons a as ih =>
    cases as with
    | nil => simp [joinSep]
    | cons b bs =>
      simp only [List.cons_append] at ih ⊢
      simp [joinSep, ih, List.append_assoc]

lemma joinSep_ne_nil (c : Char) (l : List (List Char)) (hne : l ≠ [])
    (helem : ∀ x ∈ l, x ≠ []) : joinSep c l ≠ [] := by
  cases l with
  | nil => exact absurd rfl hne
  | cons a as =>
    cases as with
    | nil => exact helem a (by simp)
    | cons b bs => simp [joinSep]

lemma encPieces_elem_ne_nil (q : List (String × List String)) :
    ∀ x ∈ q.flatMap fun kv => kv.2.map (encPair kv.1), x ≠ [] := by
  intro x hx
  rw [List.mem_flatMap] at hx
  obtain ⟨kv, _, hx2⟩ := hx
  rw [List.mem_map] at hx2
  obtain ⟨v, _, rfl⟩ := hx2
  exact encPair_ne_nil kv.1 v

lemma flatMap_enc_append (q : List (String × List String)) (k : String) (v : String) :
    ((q ++ [(k, [v])]).flatMap fun kv => kv.2.map (encPair kv.1)) =
      (q.flatMap fun kv => kv.2.map (encPair kv.1)) ++ [encPair k v] := by
  simp [List.flatMap_append]

lemma encodeQueryChars_token (q : List (String × List String)) (v : String) :
    encodeQueryChars (q ++ [(tokenKey, [v])]) ≠ [] ∧
    (encodeQueryChars (q ++ [(tokenKey, [v])])).length =
      (if encodeQueryChars q = [] then 0 else (encodeQueryChars q).length + 1) +
        (encPair tokenKey v).length := by
  unfold encodeQueryChars
  rw [flatMap_enc_append, joinSep_concat]
  by_cases h : (q.flatMap fun kv => kv.2.map (encPair kv.1)) = []
  · rw [if_pos h, h]
    refine ⟨encPair_ne_nil _ _, ?_⟩
    simp [joinSep]
  · have hq : joinSep '&' (q.flatMap fun kv => kv.2.map (encPair kv.1)) ≠ [] :=
      joinSep_ne_nil '&' _ h (encPieces_elem_ne_nil q)
    rw [if_neg h, if_neg hq]
    refine ⟨?_, ?_⟩
    · simp
    · simp [List.length_append]
      omega

lemma urlChars_ne_nil (u : UrlParts) : urlChars u ≠ [] := by
  simp [urlChars]

lemma urlChars_token_longer (u : UrlParts) (v : String) :
    (urlChars u).length <
      (urlChars { u with query := u.query ++ [(tokenKey, [v])] }).length := by
  obtain ⟨hne, hlen⟩ := encodeQueryChars_token u.query v
  have hep : 0 < (encPair tokenKey v).length := by
    simp [encPair]
  simp only [urlChars, List.length_append]
  by_cases hq : encodeQueryChars u.query = []
  · rw [hq] at hlen
    simp only [if_pos rfl, Nat.zero_add] at hlen
    simp [hq, hne, hlen]
  · rw [if_neg hq] at hlen
    simp [hq, hne, hlen]
    omega

/-- C9: for every handled (url, dom) — the URL contains "/redir,szukaj" and
no "_session_antiCSRF" — the search configurator yields exactly one
RedirectItem whose URL is the input URL with any pre-existing anti-CSRF
parameter removed and the parameter _session_antiCSRF set to the page's
hidden token value, whenever that value is present and nonempty; and yields
nothing when the input or its value is absent or empty. -/
theorem c9_search_configurator (u : UrlParts) (dom : SearchDom)
    (hhandle : searchConfiguratorCanParse (urlChars u) = true) :
    (∀ v, dom.tokenValue = some (some v) → v ≠ "" →
      searchConfiguratorParse u dom =
        [mkSeed (String.mk (urlChars { u with query :=
          (u.query.filter fun kv => !(kv.1 == tokenKey)) ++ [(tokenKey, [v])] }))]) ∧
    ((dom.tokenValue = none ∨ dom.tokenValue = some none ∨ dom.tokenValue = some (some "")) →
      searchConfiguratorParse u dom = []) := by
  clear hhandle
  constructor
  · intro v hv hvne
    have hprep : prepareSearchUrl (sanitizeQueryParameters u) dom =
        { sanitizeQueryParameters u with
            query := (sanitizeQueryParameters u).query ++ [(tokenKey, [v])] } := by
      simp [prepareSearchUrl, hv, hvne]
    have hlt := urlChars_token_longer (sanitizeQueryParameters u) v
    have hne1 : urlChars { sanitizeQueryParameters u with
        query := (sanitizeQueryParameters u).query ++ [(tokenKey, [v])] } ≠ [] :=
      urlChars_ne_nil _
    have hne2 : urlChars { sanitizeQueryParameters u with
        query := (sanitizeQueryParameters u).query ++ [(tokenKey, [v])] } ≠
        urlChars (sanitizeQueryParameters u) := by
      intro h
      exact absurd (congrArg List.length h) (Nat.ne_of_gt hlt)
    unfold searchConfiguratorParse
    rw [hprep, if_neg hne1, if_neg hne2]
    rfl
  · intro hcase
    have hprep : prepareSearchUrl (sanitizeQueryParameters u) dom =
        sanitizeQueryParameters u := by
      rcases hcase with h | h | h <;> simp [prepareSearchUrl, h]
    unfold searchConfiguratorParse
    rw [hprep]
    by_cases h0 : urlChars (sanitizeQueryParameters u) = []
    · rw [if_pos h0]
    · rw [if_neg h0, if_pos rfl]

/-- C9 witness: on the concrete search URL and a page carrying token
"tok123", the configurator is applicable and emits exactly the augmented
redirect. -/
theorem c9_witness :
    searchConfiguratorCanParse (urlChars u0) = true ∧
    searchConfiguratorParse u0 dom0 =
      [mkSeed (String.mk (urlChars { u0 with query :=
        (u0.query.filter fun kv => !(kv.1 == tokenKey)) ++ [(tokenKey, ["tok123"])] }))] :=
  ⟨by decide, (c9_search_configurator u0 dom0 (by decide)).1 "tok123" rfl (by decide)⟩

end KBip
